import Mathlib

/-!
# Verification of the arcforge lightweight logging hook

A shallow embedding of `hooks/log-lightweight.py` and proofs of the
specified properties of its session-tracking behaviour.

Modelling conventions:
* Python `dict` payloads are embedded as structures; a string-valued key that
  may be absent or `None` is modelled as `Option String` where truthiness
  matters, and as a `String` defaulting to `""` where the code itself uses
  `.get(key, "")` (Python treats `""` and a missing key identically in every
  truthiness test the hook performs on these fields).
* Python integers are `Int` (unbounded, may be negative in adversarial
  transcripts); monetary amounts are exact rationals `ℚ` (the hook's prices
  3.00 / 15.00 / 0.30 / 3.75 are decimal literals, modelled exactly).
* A transcript is a list of lines; a line is `Option TranscriptEntry`,
  `none` standing for a line that fails JSON parsing (skipped by every scan).
* Real-time and timezone-dependent operations (`datetime.now`,
  `fromisoformat` comparisons, `total_seconds`) are supplied by an
  environment record `HookEnv` of abstract functions, so every handler is a
  pure function of (environment, config, state, event payload).
-/

namespace LogHook

/-- A transcript `usage` object: per-category token counts, each read with
`usage.get(key, 0)` in the source, so absent keys are already collapsed
to `0` here. -/
structure Usage where
  input_tokens : Int := 0
  output_tokens : Int := 0
  cache_read_input_tokens : Int := 0
  cache_creation_input_tokens : Int := 0
  deriving DecidableEq, Repr

/-- The four accumulated token counters kept in session state and in both
transcript scans (`result["usage"]` / `result["tokens"]` in the source). -/
structure Tokens where
  input : Int := 0
  output : Int := 0
  cache_read : Int := 0
  cache_creation : Int := 0
  deriving DecidableEq, Repr

/-- One content block of a transcript message (`{"type": ..., "text": ...}`);
`text` is read with `c.get("text", "")` in the source. -/
structure ContentBlock where
  type : String := ""
  text : String := ""
  deriving DecidableEq, Repr

/-- A transcript `message` object.  `content` is `none` when the JSON value is
not a list (the tail reader skips such messages); an absent `content` key is
`msg.get("content", [])`, i.e. `some []`.  `model` and `role` default to `""`
for an absent key, matching every truthiness test performed on them. -/
structure Message where
  role : String := ""
  content : Option (List ContentBlock) := some []
  model : String := ""
  usage : Option Usage := none
  deriving DecidableEq, Repr

/-- One parsed transcript line.  `usage` is the top-level `usage` key
(`none` when absent or falsy); `timestamp` is `entry.get("timestamp", "")`. -/
structure TranscriptEntry where
  timestamp : String := ""
  usage : Option Usage := none
  message : Option Message := none
  deriving DecidableEq, Repr

/-- A raw transcript line: `none` models a line on which `json.loads` raises
(skipped by every reader via `except (json.JSONDecodeError, ValueError)`). -/
abbrev TranscriptLine := Option TranscriptEntry

/-- `entry.get("usage") or entry.get("message", {}).get("usage", {})`:
the top-level usage if truthy, else the message usage (possibly absent). -/
def resolvedUsage (e : TranscriptEntry) : Option Usage :=
  match e.usage with
  | some u => some u
  | none => match e.message with
    | some m => m.usage
    | none => none

/-- `entry.get("message", {}).get("model")`, collapsed to `""` when absent. -/
def entryModel (e : TranscriptEntry) : String :=
  match e.message with
  | some m => m.model
  | none => ""

/-- Adds the four categories of a usage object into an accumulator, exactly
as both scans do (`+= usage.get(key, 0)` for each category). -/
def addUsage (t : Tokens) (u : Usage) : Tokens :=
  { input := t.input + u.input_tokens
    output := t.output + u.output_tokens
    cache_read := t.cache_read + u.cache_read_input_tokens
    cache_creation := t.cache_creation + u.cache_creation_input_tokens }

/-- Componentwise sum of two accumulated-token records (the `Stop` handler's
`tokens[key] += incremental["usage"].get(key, 0)` loop). -/
def addTokens (t u : Tokens) : Tokens :=
  { input := t.input + u.input
    output := t.output + u.output
    cache_read := t.cache_read + u.cache_read
    cache_creation := t.cache_creation + u.cache_creation }

/-- Python truthiness of an optional string value (`None` and `""` falsy). -/
def optStrTruthy (o : Option String) : Bool :=
  match o with
  | some s => s ≠ ""
  | none => false

/-- Python `a or b` on two optional string values. -/
def pyOrStr (a b : Option String) : Option String :=
  if optStrTruthy a then a else b

/-! ## Cost computation (`calculate_cost`, `PRICING`) -/

/-- Rounds a rational to four decimal places (`round(cost, 4)`; the tie-break
convention is immaterial to every property proved about it). -/
def round4 (q : ℚ) : ℚ := (round (q * 10000) : ℤ) / 10000

/-- Rounds a rational to one decimal place (`round(x, 1)`). -/
def round1 (q : ℚ) : ℚ := (round (q * 10) : ℤ) / 10

/-- `calculate_cost`: per-category price per million tokens, summed in the
source's order and rounded to four decimals.  `PRICING` is inlined:
input 3.00, output 15.00, cache_read 0.30, cache_creation 3.75 USD / 1M. -/
def calculate_cost (tokens : Tokens) : ℚ :=
  round4 ((tokens.input : ℚ) * 3 / 1000000
    + (tokens.output : ℚ) * 15 / 1000000
    + (tokens.cache_read : ℚ) * (3 / 10) / 1000000
    + (tokens.cache_creation : ℚ) * (15 / 4) / 1000000)

/-! ## Lexicographic string comparison

Python compares the ISO-8601 timestamp strings of the transcript with `<=`
and `>`, i.e. lexicographically by code point.  The boolean comparators
below implement that order structurally (so that concrete scans evaluate by
`decide`); they agree with the `String` linear order, see
`strLtB_iff` / `strLeB_iff`. -/

/-- Lexicographic order on char lists, by code point. -/
def charListLtB : List Char → List Char → Bool
  | _, [] => false
  | [], _ :: _ => true
  | a :: as, b :: bs =>
    if a < b then true else if b < a then false else charListLtB as bs

/-- Python `a < b` on strings. -/
def strLtB (a b : String) : Bool := charListLtB a.toList b.toList

/-- Python `a <= b` on strings. -/
def strLeB (a b : String) : Bool := !(strLtB b a)

/-! ## Python string primitives

Structural implementations (over the underlying char list, i.e. by code
point, exactly Python's unit of string indexing and length) of the string
operations the hook uses: `len`, slicing, `" ".join`, `.strip()` and
`.split("/")`. -/

/-- Python `len(s)`: number of code points. -/
def pyLen (s : String) : Int := (s.data.length : Int)

/-- Python `s[:n]` for `0 ≤ n`: the first `n` code points. -/
def pyTake (s : String) (n : Nat) : String := ⟨s.data.take n⟩

/-- Python whitespace, as stripped by `str.strip()` (ASCII subset; the
fixtures proved about contain no exotic whitespace). -/
def isPyWhitespace (c : Char) : Bool :=
  c = ' ' ∨ c = '\t' ∨ c = '\n' ∨ c = '\r' ∨ c = '\x0b' ∨ c = '\x0c'

/-- Python `s.strip()`: drop leading and trailing whitespace. -/
def pyStrip (s : String) : String :=
  ⟨((s.data.dropWhile isPyWhitespace).reverse.dropWhile isPyWhitespace).reverse⟩

/-- Python `" ".join(xs)`. -/
def joinWithSpace : List String → String
  | [] => ""
  | [x] => x
  | x :: xs => x ++ " " ++ joinWithSpace xs

/-- Splits a char list on `'/'` (Python `path.split("/")`, as `pathlib`
componentises a POSIX path). -/
def splitSlash : List Char → List (List Char)
  | [] => [[]]
  | c :: rest =>
    let r := splitSlash rest
    if c = '/' then [] :: r
    else
      match r with
      | h :: t => (c :: h) :: t
      | [] => [[c]]

/-! ## Tail read (`get_latest_response`)

The source seeks to at most the last 50 KiB of the file and scans the decoded
lines in reverse.  The embedding takes the transcript's lines directly (for a
transcript of at most 50 KiB the window covers the whole file, which is the
regime of every property stated about the tail read); a missing file or empty
path is the `none` transcript. -/

/-- The per-line body of the reverse scan of `get_latest_response`: for an
assistant message whose content is a list, join the `text` of all text-typed
blocks with `" "`, strip surrounding whitespace, and if non-empty return it,
truncated to `max_length` characters plus `"..."` when `max_length > 0`
bounds are exceeded.  Returns `none` when the scan must continue. -/
def responseOfLine (max_length : Int) (l : TranscriptLine) : Option String :=
  match l with
  | none => none
  | some e =>
    match e.message with
    | none => none
    | some m =>
      if m.role = "assistant" then
        match m.content with
        | some blocks =>
          let texts := (blocks.filter (fun c => c.type = "text")).map ContentBlock.text
          let response := pyStrip (joinWithSpace texts)
          if response ≠ "" then
            if max_length > 0 ∧ pyLen response > max_length then
              some (pyTake response max_length.toNat ++ "...")
            else some response
          else none
        | none => none
      else none

/-- `get_latest_response`: most recent assistant response text from the
transcript tail; `none` when the file is absent or no assistant message with
non-empty text exists. -/
def get_latest_response (transcript : Option (List TranscriptLine))
    (max_length : Int) : Option String :=
  match transcript with
  | none => none
  | some lines => lines.reverse.findSome? (responseOfLine max_length)

/-! ## Incremental scan (`get_incremental_usage`) -/

/-- Result record of `get_incremental_usage`. -/
structure IncResult where
  usage : Tokens := {}
  model : Option String := none
  context_tokens : Int := 0
  last_timestamp : String := ""
  deriving DecidableEq, Repr

/-- The timestamp filter of the incremental scan: an entry is skipped when its
timestamp is absent (`if not entry_ts: continue`) or when a non-empty
watermark is supplied and the timestamp is `<=` it (Python compares ISO
timestamp strings lexicographically, as does the `String` order here). -/
def passesIncFilter (w : String) (e : TranscriptEntry) : Bool :=
  if e.timestamp = "" then false
  else if w ≠ "" ∧ strLeB e.timestamp w then false
  else true

/-- Effect of one filtered-in entry on the incremental accumulator, in source
order: advance the running latest timestamp, then accumulate usage — but only
when the resolved usage object is truthy *and* its `input_tokens` is truthy
(`if usage and usage.get("input_tokens")`) — then record the last non-empty
model. -/
def incApplyEntry (r : IncResult) (e : TranscriptEntry) : IncResult :=
  let r1 := if strLtB r.last_timestamp e.timestamp
    then { r with last_timestamp := e.timestamp } else r
  let r2 := match resolvedUsage e with
    | some u =>
      if u.input_tokens ≠ 0 then
        { r1 with usage := addUsage r1.usage u
                  context_tokens := u.input_tokens + u.cache_read_input_tokens }
      else r1
    | none => r1
  let m := entryModel e
  if m ≠ "" then { r2 with model := some m } else r2

/-- One line of the incremental scan: malformed lines and filtered-out
entries leave the accumulator untouched. -/
def incStep (w : String) (r : IncResult) (l : TranscriptLine) : IncResult :=
  match l with
  | none => r
  | some e => if passesIncFilter w e then incApplyEntry r e else r

/-- `get_incremental_usage`: accumulates usage over entries whose timestamp is
strictly after the watermark `last_timestamp`; returns the zero result with
the unchanged watermark when the transcript file is absent. -/
def get_incremental_usage (transcript : Option (List TranscriptLine))
    (last_timestamp : String) : IncResult :=
  let init : IncResult := { last_timestamp := last_timestamp }
  match transcript with
  | none => init
  | some lines => lines.foldl (incStep last_timestamp) init

/-! ## Full scan (`get_session_info`)

The source parses the session start time and each entry timestamp with
`datetime.fromisoformat` (normalising a trailing `Z`, and converting a naive
start time to UTC when the entry is timezone-aware) and skips entries with
`entry_dt < start_dt`.  That comparison depends on the invoking process's
local timezone, so it is abstracted here as a predicate
`cmp : String → Option Bool` supplied by the environment:
`cmp ts = none` models a timestamp on which `fromisoformat` raises
`ValueError` (the entry is skipped), and `cmp ts = some b` models
`entry_dt < start_dt = b`. -/

/-- Result record of `get_session_info`. -/
structure SessResult where
  tokens : Tokens := {}
  model : Option String := none
  context_tokens : Int := 0
  deriving DecidableEq, Repr

/-- The timestamp filter of the full scan: an entry without a timestamp is
always processed; a timestamped entry is processed unless its timestamp fails
to parse or parses to a instant before the session start. -/
def passesFull (cmp : String → Option Bool) (e : TranscriptEntry) : Bool :=
  if e.timestamp = "" then true
  else match cmp e.timestamp with
    | none => false
    | some isBefore => !isBefore

/-- Effect of one filtered-in entry on the full-scan accumulator, in source
order: record the first non-empty model, then accumulate the resolved usage
whenever it is truthy (no `input_tokens` gate, unlike the incremental
scan) and overwrite the context snapshot with `input + cache_read`. -/
def sessApplyEntry (r : SessResult) (e : TranscriptEntry) : SessResult :=
  let r1 := if r.model = none ∧ entryModel e ≠ ""
    then { r with model := some (entryModel e) } else r
  match resolvedUsage e with
  | some u =>
    { r1 with tokens := addUsage r1.tokens u
              context_tokens := u.input_tokens + u.cache_read_input_tokens }
  | none => r1

/-- One line of the full scan. -/
def sessStep (cmp : String → Option Bool) (r : SessResult) (l : TranscriptLine) :
    SessResult :=
  match l with
  | none => r
  | some e => if passesFull cmp e then sessApplyEntry r e else r

/-- `get_session_info`: token usage, first model and last context snapshot of
the transcript entries at or after the session start. -/
def get_session_info (transcript : Option (List TranscriptLine))
    (cmp : String → Option Bool) : SessResult :=
  match transcript with
  | none => {}
  | some lines => lines.foldl (sessStep cmp) {}

/-! ## Small string helpers (`truncate`, `get_filename`, `format_timestamp`) -/

/-- `truncate`: identity on empty or short-enough text, else a `max_len`
character prefix followed by `"..."`. -/
def truncate (text : String) (max_len : Nat) : String :=
  if text = "" ∨ pyLen text ≤ (max_len : Int) then text
  else pyTake text max_len ++ "..."

/-- `get_filename`: `Path(path).name` — the last path component.  `pathlib`
drops empty and `"."` components; properties proved here only exercise it on
ordinary `dir/file.ext` paths. -/
def get_filename (path : String) : String :=
  if path = "" then ""
  else
    let comps := (splitSlash path.data).map (fun cs => (⟨cs⟩ : String))
    ((comps.filter (fun c => c ≠ "" ∧ c ≠ ".")).getLast?).getD ""

/-- Digit test used by the ISO-timestamp shape check. -/
def digitAt (cs : List Char) (i : Nat) : Bool :=
  (cs.getD i ' ').isDigit

/-- Shape of the ISO timestamps the hook itself produces
(`YYYY-MM-DDTHH:MM:SS.ffffff`, and any `fromisoformat`-parsable string
carrying at least date, `T` and `HH:MM`). -/
def isoShape (s : String) : Bool :=
  let cs := s.toList
  decide (16 ≤ cs.length) &&
  digitAt cs 0 && digitAt cs 1 && digitAt cs 2 && digitAt cs 3 &&
  (cs.getD 4 ' ' == '-') && digitAt cs 5 && digitAt cs 6 &&
  (cs.getD 7 ' ' == '-') && digitAt cs 8 && digitAt cs 9 &&
  (cs.getD 10 ' ' == 'T') && digitAt cs 11 && digitAt cs 12 &&
  (cs.getD 13 ' ' == ':') && digitAt cs 14 && digitAt cs 15

/-- `format_timestamp`: renders an ISO timestamp as `MM-DD HH:MM`
(`strftime("%m-%d %H:%M")`); on a string `fromisoformat` cannot parse the
bare `except` returns the input unchanged. -/
def format_timestamp (iso : String) : String :=
  if isoShape iso then
    let cs := iso.toList
    String.mk [cs.getD 5 ' ', cs.getD 6 ' ', '-', cs.getD 8 ' ', cs.getD 9 ' ',
      ' ', cs.getD 11 ' ', cs.getD 12 ' ', ':', cs.getD 14 ' ', cs.getD 15 ' ']
  else iso

/-! ## Tool input/output summaries -/

/-- A `tool_input` dict.  Each field is `some v` when the key is present
(already stringified where the source applies `str`); `repr` is
`str(tool_input)` for the generic fallback; `isEmpty` is the dict's
falsiness (`if not tool_input`). -/
structure ToolInput where
  file_path : Option String := none
  pattern : Option String := none
  path : Option String := none
  command : Option String := none
  skill : Option String := none
  prompt : Option String := none
  subagent_type : Option String := none
  repr : String := "{}"
  isEmpty : Bool := true
  deriving DecidableEq, Repr

/-- `summarize_tool_input`: tool-specific one-line summary of a tool call's
input dict. -/
def summarize_tool_input (tool_name : String) (tool_input : ToolInput) : String :=
  if tool_input.isEmpty then ""
  else if tool_name = "Read" then get_filename (tool_input.file_path.getD "")
  else if tool_name = "Grep" then
    let pat := truncate (tool_input.pattern.getD "") 30
    let nm := get_filename (tool_input.path.getD ".")
    let nm := if nm = "" then "." else nm
    "pattern=\"" ++ pat ++ "\", path=" ++ nm
  else if tool_name = "Glob" then truncate (tool_input.pattern.getD "") 50
  else if tool_name = "Edit" ∨ tool_name = "MultiEdit" then
    get_filename (tool_input.file_path.getD "")
  else if tool_name = "Write" then get_filename (tool_input.file_path.getD "")
  else if tool_name = "Bash" then truncate (tool_input.command.getD "") 50
  else if tool_name = "Skill" then tool_input.skill.getD ""
  else if tool_name = "Task" then
    let prompt := tool_input.prompt.getD ""
    let subagent := tool_input.subagent_type.getD ""
    if subagent ≠ "" then subagent ++ ": " ++ truncate prompt 40
    else truncate prompt 50
  else if tool_input.file_path.isSome then get_filename (tool_input.file_path.getD "")
  else if tool_input.pattern.isSome then truncate (tool_input.pattern.getD "") 50
  else truncate tool_input.repr 50

/-- A `tool_response` value.  `isDict` distinguishes dict responses from
other JSON values; `error` is the stringified `error` field (`""` when
absent or falsy); numeric fields mirror the keys the summariser reads. -/
structure ToolResponse where
  isDict : Bool := true
  error : String := ""
  file_numLines : Option Int := none
  file_totalLines : Option Int := none
  filenames : List String := []
  numFiles : Option Int := none
  structuredPatch : List Int := []
  exitCode : Option Int := none
  exit_code : Option Int := none
  deriving DecidableEq, Repr

/-- `summarize_tool_output`: tool-specific one-line summary of a tool call's
response. -/
def summarize_tool_output (tool_name : String) (tool_response : Option ToolResponse) :
    String :=
  match tool_response with
  | none => ""
  | some r =>
    if r.isDict ∧ r.error ≠ "" then "失敗: " ++ truncate r.error 30
    else if tool_name = "Read" then
      if r.isDict then
        let fallback := match r.file_totalLines with
          | some m => toString m
          | none => "?"
        let n := match r.file_numLines with
          | some n => if n = 0 then fallback else toString n
          | none => fallback
        n ++ " 行"
      else "成功"
    else if tool_name = "Grep" then
      if r.isDict then
        toString (r.numFiles.getD (r.filenames.length : Int)) ++ " 檔案匹配"
      else "成功"
    else if tool_name = "Glob" then
      if r.isDict then
        toString (r.numFiles.getD (r.filenames.length : Int)) ++ " 檔案"
      else "成功"
    else if tool_name = "Edit" ∨ tool_name = "MultiEdit" then
      if r.isDict ∧ r.structuredPatch ≠ [] then
        toString (r.structuredPatch.foldl (· + ·) 0) ++ " 行變更"
      else ""
    else ""

/-- The `error_count` test of the PostToolUse handler: a dict response with a
truthy `error` field, or for `Bash` a dict response whose
`exitCode`/`exit_code` is present and non-zero. -/
def toolResponseIsError (tool_name : String) (tool_response : Option ToolResponse) :
    Bool :=
  match tool_response with
  | none => false
  | some r =>
    if r.isDict ∧ r.error ≠ "" then true
    else if tool_name = "Bash" ∧ r.isDict then
      match r.exitCode with
      | some c => c ≠ 0
      | none => match r.exit_code with
        | some c => c ≠ 0
        | none => false
    else false

/-! ## Session state, configuration, environment -/

/-- The `pending_tool` marker set by PreToolUse. -/
structure PendingTool where
  ts : String := ""
  tool : String := ""
  input : String := ""
  deriving DecidableEq, Repr

/-- The `pending_subagent` marker set when a `Task` tool completes. -/
structure PendingSubagent where
  type : String := "unknown"
  start_time : String := ""
  deriving DecidableEq, Repr

/-- One timeline record.  The JSON dicts of the five timeline types are
flattened into a single record; the `type` field selects which of the
type-specific fields are meaningful, exactly as in the written log. -/
structure TimelineEntry where
  ts : String := ""
  type : String := ""
  content : String := ""
  tool : String := ""
  input : String := ""
  output : Option String := none
  subagent_type : String := ""
  duration_sec : Option Int := none
  success : Bool := false
  deriving DecidableEq, Repr

/-- The persisted session state dict.  String fields read in the source with
a `""`/falsy default are plain strings here; the persisted empty mapping
`{}` is represented by `Option SessionState = none` at every use site. -/
structure SessionState where
  start_time : String := ""
  session_id : String := ""
  transcript_path : String := ""
  project_root : String := ""
  timeline : List TimelineEntry := []
  pending_tool : Option PendingTool := none
  pending_subagent : Option PendingSubagent := none
  files_modified : List String := []
  error_count : Int := 0
  tokens : Tokens := {}
  context_tokens : Int := 0
  model : Option String := none
  last_processed_timestamp : String := ""
  deriving DecidableEq, Repr

/-- The default watch-list `DEFAULT_TOOLS_TO_LOG`. -/
def DEFAULT_TOOLS_TO_LOG : List String :=
  ["Edit", "MultiEdit", "Write", "NotebookEdit", "Skill", "Task", "AskUserQuestion"]

/-- The merged configuration (defaults of `get_config`). -/
structure Config where
  enabled : Bool := true
  response_max_length : Int := 0
  context_limit : Int := 200000
  tools_to_log : List String := DEFAULT_TOOLS_TO_LOG
  performance_tracking : Bool := false
  deriving DecidableEq, Repr

/-- The ambient, real-time-dependent facts of one hook invocation:
`now` is `datetime.now().isoformat()`, `nowUtcZ` the `Z`-suffixed UTC
timestamp seeded as the initial watermark, `duration` abstracts
`calculate_duration` (already `none` on unparsable inputs), `startCmp s ts`
abstracts the full scan's `entry_dt < start_dt` comparison for session start
`s` (see `get_session_info`), and `fs` maps a transcript path to its parsed
lines (`none`: missing file or empty path). -/
structure HookEnv where
  now : String := ""
  nowUtcZ : String := ""
  duration : String → String → Option Int := fun _ _ => none
  startCmp : String → String → Option Bool := fun _ _ => some false
  fs : String → Option (List TranscriptLine) := fun _ => none

/-- The snapshot document assembled by `write_log_snapshot` and handed to
`append_to_log`.  The two context percentages are kept as rationals; the
source renders them as one-decimal percent strings. -/
structure Snapshot where
  model : Option String := none
  duration_sec : Option Int := none
  cost_estimate : ℚ := 0
  tokens : Tokens := {}
  context_tokens : Int := 0
  context_limit : Int := 0
  context_used_pct : ℚ := 0
  context_remaining_pct : ℚ := 0
  files_modified : List String := []
  error_count : Int := 0
  start_time : String := ""
  end_time : String := ""
  transcript_path : String := ""
  timeline : List TimelineEntry := []
  deriving DecidableEq, Repr

/-- Observable outcome of one event handler: the state left in the state
file, whether the handler wrote the state file at all, and the snapshot
document written to the session log (`none`: no snapshot written). -/
structure StepOut where
  state : Option SessionState := none
  wroteState : Bool := false
  snapshot : Option Snapshot := none
  deriving DecidableEq, Repr

/-! ## Log writer (`write_log_snapshot`) -/

/-- `write_log_snapshot`: returns the snapshot written (`none` when the
guard `not state or not state.get("start_time")` fires) together with the
state as left by the call (a full token update caches the rescanned tokens,
context snapshot, and model back into the state object). -/
def write_log_snapshot (env : HookEnv) (config : Config)
    (stateO : Option SessionState) (full_token_update : Bool) :
    Option Snapshot × Option SessionState :=
  match stateO with
  | none => (none, none)
  | some state =>
    if state.start_time = "" then (none, some state)
    else
      let now := env.now
      let info := get_session_info (env.fs state.transcript_path)
        (env.startCmp state.start_time)
      let tokens := if full_token_update then info.tokens else state.tokens
      let context_tokens := if full_token_update then info.context_tokens
        else state.context_tokens
      let model := if full_token_update then pyOrStr info.model state.model
        else state.model
      let newModel := if optStrTruthy model then model else state.model
      let state' := if full_token_update then
          { state with tokens := tokens
                       context_tokens := context_tokens
                       model := newModel }
        else state
      let cost := calculate_cost tokens
      let duration := env.duration state.start_time now
      let climit := config.context_limit
      let used := if climit > 0
        then round1 ((context_tokens : ℚ) / (climit : ℚ) * 100) else 0
      let remaining := if climit > 0
        then round1 (((climit - context_tokens : Int) : ℚ) / (climit : ℚ) * 100)
        else 100
      (some { model := model, duration_sec := duration, cost_estimate := cost,
              tokens := tokens, context_tokens := context_tokens,
              context_limit := climit, context_used_pct := used,
              context_remaining_pct := remaining,
              files_modified := state.files_modified,
              error_count := state.error_count,
              start_time := state.start_time, end_time := now,
              transcript_path := state.transcript_path,
              timeline := state.timeline }, some state')

/-! ## Event handlers (`main`'s dispatch branches)

Each handler is the body of one `elif hook_event == ...` branch of `main`,
as a pure function of the environment, config, persisted state and event
payload.  The Python truthiness test `if state` on the persisted dict is the
`Option` match (the empty mapping is `none`); `if state.get("start_time")`
is `start_time ≠ ""`. -/

/-- The fresh timeline record for a submitted prompt. -/
def promptEntry (now prompt : String) : TimelineEntry :=
  { ts := format_timestamp now, type := "prompt", content := prompt }

/-- SessionStart: initialise fresh state, preserving an existing timeline
only for a `"startup"` trigger whose transcript path matches the persisted
state (an empty persisted mapping never matches). -/
def handleSessionStart (env : HookEnv) (st : Option SessionState)
    (session_id transcript_path trigger cwd : String) : StepOut :=
  let existing_timeline :=
    match st with
    | some s =>
      if trigger = "startup" ∧ s.transcript_path = transcript_path
      then s.timeline else []
    | none => []
  let new_state : SessionState :=
    { start_time := env.now
      session_id := session_id
      transcript_path := transcript_path
      project_root := cwd
      timeline := existing_timeline
      last_processed_timestamp := env.nowUtcZ }
  { state := some new_state, wroteState := true, snapshot := none }

/-- UserPromptSubmit: append a prompt record to a matching session's
timeline, or initialise fresh state seeded with this prompt. -/
def handleUserPromptSubmit (env : HookEnv) (config : Config)
    (st : Option SessionState) (prompt transcript_path cwd : String) : StepOut :=
  let fresh : StepOut :=
    let new_state : SessionState :=
      { start_time := env.now
        transcript_path := transcript_path
        project_root := cwd
        timeline := [promptEntry env.now prompt]
        last_processed_timestamp := env.nowUtcZ }
    { state := some new_state, wroteState := true,
      snapshot := (write_log_snapshot env config (some new_state) false).1 }
  match st with
  | some s =>
    if s.transcript_path = transcript_path ∧ s.start_time ≠ "" then
      let s' := { s with timeline := s.timeline ++ [promptEntry env.now prompt] }
      { state := some s', wroteState := true,
        snapshot := (write_log_snapshot env config (some s') false).1 }
    else fresh
  | none => fresh

/-- PreToolUse: record the pending-tool marker for a watched tool. -/
def handlePreToolUse (env : HookEnv) (config : Config) (st : Option SessionState)
    (tool_name : String) (tool_input : ToolInput) : StepOut :=
  match st with
  | none => { state := none }
  | some s =>
    if tool_name ∈ config.tools_to_log then
      let p : PendingTool :=
        { ts := env.now, tool := tool_name,
          input := summarize_tool_input tool_name tool_input }
      let s' := { s with pending_tool := some p }
      { state := some s', wroteState := true, snapshot := none }
    else { state := some s }

/-- The timeline `tool` record of a PostToolUse event before the optional
`output` field: merged from the pending marker when its tool name matches,
otherwise built fresh from the event's own data. -/
def baseToolEntry (now : String) (s : SessionState) (tool_name : String)
    (tool_input : ToolInput) : TimelineEntry :=
  match s.pending_tool with
  | some p =>
    if p.tool = tool_name then
      { ts := format_timestamp p.ts, type := "tool", tool := tool_name,
        input := p.input }
    else
      { ts := format_timestamp now, type := "tool", tool := tool_name,
        input := summarize_tool_input tool_name tool_input }
  | none =>
    { ts := format_timestamp now, type := "tool", tool := tool_name,
      input := summarize_tool_input tool_name tool_input }

/-- The completed timeline record of a PostToolUse event: the base record,
with the output summary attached only when non-empty. -/
def postToolTimelineEntry (now : String) (s : SessionState) (tool_name : String)
    (tool_input : ToolInput) (tool_response : Option ToolResponse) : TimelineEntry :=
  let output := summarize_tool_output tool_name tool_response
  let entry0 := baseToolEntry now s tool_name tool_input
  if output ≠ "" then { entry0 with output := some output } else entry0

/-- The `files_modified` tracking of the PostToolUse handler: for a mutating
tool with a non-empty `file_path`, append the (non-empty, not yet recorded)
filename. -/
def applyFilesModified (tool_name : String) (tool_input : ToolInput)
    (s : SessionState) : SessionState :=
  if tool_name = "Edit" ∨ tool_name = "MultiEdit" ∨ tool_name = "Write" then
    let fp := tool_input.file_path.getD ""
    if fp ≠ "" then
      let filename := get_filename fp
      if filename ≠ "" ∧ filename ∉ s.files_modified then
        { s with files_modified := s.files_modified ++ [filename] }
      else s
    else s
  else s

/-- The `error_count` tracking of the PostToolUse handler. -/
def applyErrorCount (tool_name : String) (tool_response : Option ToolResponse)
    (s : SessionState) : SessionState :=
  if toolResponseIsError tool_name tool_response then
    { s with error_count := s.error_count + 1 }
  else s

/-- The pending-subagent tracking of the PostToolUse handler: a completed
`Task` call opens the marker. -/
def applyPendingSubagent (now : String) (tool_name : String)
    (tool_input : ToolInput) (s : SessionState) : SessionState :=
  if tool_name = "Task" then
    let psub : PendingSubagent :=
      { type := tool_input.subagent_type.getD "unknown", start_time := now }
    { s with pending_subagent := some psub }
  else s

/-- PostToolUse: complete the tool's timeline record, clear the pending
marker, track modified files, count failures, open a subagent marker for
`Task`, then write state and a snapshot. -/
def handlePostToolUse (env : HookEnv) (config : Config) (st : Option SessionState)
    (tool_name : String) (tool_input : ToolInput)
    (tool_response : Option ToolResponse) : StepOut :=
  match st with
  | none => { state := none }
  | some s =>
    if tool_name ∈ config.tools_to_log then
      let entry := postToolTimelineEntry env.now s tool_name tool_input tool_response
      let s1 := { s with timeline := s.timeline ++ [entry], pending_tool := none }
      let s4 := applyPendingSubagent env.now tool_name tool_input
        (applyErrorCount tool_name tool_response
          (applyFilesModified tool_name tool_input s1))
      { state := some s4, wroteState := true,
        snapshot := (write_log_snapshot env config (some s4) false).1 }
    else { state := some s }

/-- SubagentStop: convert a pending subagent marker into a timeline record. -/
def handleSubagentStop (env : HookEnv) (config : Config)
    (st : Option SessionState) : StepOut :=
  match st with
  | none => { state := none }
  | some s =>
    match s.pending_subagent with
    | some p =>
      let duration := if p.start_time ≠ "" then env.duration p.start_time env.now
        else none
      let entry : TimelineEntry :=
        { ts := format_timestamp env.now, type := "subagent",
          subagent_type := p.type, duration_sec := duration, success := true }
      let s' := { s with timeline := s.timeline ++ [entry],
                         pending_subagent := none }
      { state := some s', wroteState := true,
        snapshot := (write_log_snapshot env config (some s') false).1 }
    | none => { state := some s }

/-- PermissionRequest: append a permission-request timeline record. -/
def handlePermissionRequest (env : HookEnv) (config : Config)
    (st : Option SessionState) (tool_name : String) (tool_input : ToolInput) :
    StepOut :=
  match st with
  | none => { state := none }
  | some s =>
    let entry : TimelineEntry :=
      { ts := format_timestamp env.now, type := "permission_request",
        tool := tool_name, input := summarize_tool_input tool_name tool_input }
    let s' := { s with timeline := s.timeline ++ [entry] }
    { state := some s', wroteState := true,
      snapshot := (write_log_snapshot env config (some s') false).1 }

/-- Stop: append the tail-read response (if any), add the incremental usage
into the accumulated tokens, refresh context/model/watermark, and write
state plus a cheap snapshot. -/
def handleStop (env : HookEnv) (config : Config) (st : Option SessionState) :
    StepOut :=
  match st with
  | none => { state := none }
  | some s =>
    if s.start_time = "" then { state := some s }
    else
      let transcript := env.fs s.transcript_path
      let s1 := match get_latest_response transcript config.response_max_length with
        | some response =>
          let entry : TimelineEntry :=
            { ts := format_timestamp env.now, type := "response",
              content := response }
          { s with timeline := s.timeline ++ [entry] }
        | none => s
      let inc := get_incremental_usage transcript s1.last_processed_timestamp
      let s2 := { s1 with tokens := addTokens s1.tokens inc.usage }
      let s3 := if inc.context_tokens ≠ 0 then
          { s2 with context_tokens := inc.context_tokens } else s2
      let s4 := if optStrTruthy inc.model then { s3 with model := inc.model }
        else s3
      let s5 := if inc.last_timestamp ≠ "" then
          { s4 with last_processed_timestamp := inc.last_timestamp } else s4
      { state := some s5, wroteState := true,
        snapshot := (write_log_snapshot env config (some s5) false).1 }

/-- SessionEnd: write a final snapshot — a full rescan when neither input nor
output tokens have accumulated — then clear the persisted state to the empty
mapping unconditionally. -/
def handleSessionEnd (env : HookEnv) (config : Config)
    (st : Option SessionState) : StepOut :=
  let snap :=
    match st with
    | some s =>
      if s.start_time ≠ "" then
        let has_valid_tokens := s.tokens.input > 0 ∨ s.tokens.output > 0
        (write_log_snapshot env config (some s) (!has_valid_tokens)).1
      else none
    | none => none
  { state := none, wroteState := true, snapshot := snap }

/-! ## Top-level entry point (`main`) -/

/-- The event payload parsed from standard input. -/
structure EventPayload where
  hook_event_name : String := ""
  cwd : String := ""
  session_id : String := ""
  transcript_path : String := ""
  trigger : String := ""
  prompt : String := ""
  tool_name : String := ""
  tool_input : ToolInput := {}
  tool_response : Option ToolResponse := none
  deriving DecidableEq, Repr

/-- The `elif` chain of `main`: routes one event to its handler; an unknown
event name falls through every branch and changes nothing. -/
def dispatchEvent (env : HookEnv) (config : Config) (st : Option SessionState)
    (ev : EventPayload) : StepOut :=
  if ev.hook_event_name = "SessionStart" then
    handleSessionStart env st ev.session_id ev.transcript_path ev.trigger ev.cwd
  else if ev.hook_event_name = "UserPromptSubmit" then
    handleUserPromptSubmit env config st ev.prompt ev.transcript_path ev.cwd
  else if ev.hook_event_name = "PreToolUse" then
    handlePreToolUse env config st ev.tool_name ev.tool_input
  else if ev.hook_event_name = "PostToolUse" then
    handlePostToolUse env config st ev.tool_name ev.tool_input ev.tool_response
  else if ev.hook_event_name = "SubagentStop" then
    handleSubagentStop env config st
  else if ev.hook_event_name = "PermissionRequest" then
    handlePermissionRequest env config st ev.tool_name ev.tool_input
  else if ev.hook_event_name = "Stop" then
    handleStop env config st
  else if ev.hook_event_name = "SessionEnd" then
    handleSessionEnd env config st
  else { state := st }

/-- One delivery on standard input: a payload that fails `json.load`, a
parsed payload, or a payload whose handling raises an internal exception
somewhere inside the `try` block (dynamic typing makes this possible at
almost every line; the claim quantifies over such payloads, so they are an
explicit injection point carrying the exception message). -/
inductive HookInput where
  | malformed
  | event (ev : EventPayload)
  | raises (msg : String)
  deriving DecidableEq, Repr

/-- Observable outcome of one `main` invocation for the host process. -/
structure MainOutcome where
  exitCode : Nat := 0
  stderrDiagnostics : List String := []
  errorsLogAppended : Bool := false
  dispatched : Option StepOut := none
  deriving DecidableEq, Repr

/-- The body of `main`'s `try` block: `Except.error` is a raised exception
reaching the top-level handler.  A disabled config exits early via
`sys.exit(0)` (a `SystemExit`, which `except Exception` does not catch). -/
def mainBody (env : HookEnv) (config : Config) (st : Option SessionState)
    (inp : HookInput) : Except String (Option StepOut) :=
  match inp with
  | .malformed => .error "Expecting value"
  | .raises msg => .error msg
  | .event ev =>
    if !config.enabled then .ok none
    else .ok (some (dispatchEvent env config st ev))

/-- `main`: runs the body under the catch-all `except Exception` handler.
On an exception the diagnostic is printed to standard error and appended
best-effort to `errors.log` (`errorsLogWritable` says whether that append
itself succeeds; its own failure is swallowed), and the process still exits
with status zero. -/
def mainHook (env : HookEnv) (config : Config) (st : Option SessionState)
    (errorsLogWritable : Bool) (inp : HookInput) : MainOutcome :=
  match mainBody env config st inp with
  | .ok out =>
    { exitCode := 0, stderrDiagnostics := [], errorsLogAppended := false,
      dispatched := out }
  | .error msg =>
    { exitCode := 0, stderrDiagnostics := ["Hook Error: " ++ msg],
      errorsLogAppended := errorsLogWritable, dispatched := none }

/-! ## Lemmas: the boolean comparators agree with the `String` order -/

lemma charListLtB_nil_right (as : List Char) : charListLtB as [] = false := by
  cases as <;> rfl

lemma charListLtB_iff :
    ∀ as bs : List Char, charListLtB as bs = true ↔ List.Lex (· < ·) as bs := by
  intro as
  induction as with
  | nil =>
    intro bs
    cases bs with
    | nil =>
      rw [charListLtB_nil_right]
      constructor
      · intro h
        exact absurd h Bool.false_ne_true
      · intro h
        exact absurd h (List.Lex.not_nil_right _ _)
    | cons b bs =>
      simp only [charListLtB, true_iff]
      exact List.Lex.nil
  | cons a as ih =>
    intro bs
    cases bs with
    | nil =>
      rw [charListLtB_nil_right]
      constructor
      · intro h
        exact absurd h Bool.false_ne_true
      · intro h
        exact absurd h (List.Lex.not_nil_right _ _)
    | cons b bs =>
      show (if a < b then true else if b < a then false else charListLtB as bs) = true ↔ _
      rcases lt_trichotomy a b with h | h | h
      · rw [if_pos h]
        simp only [true_iff]
        exact List.Lex.rel h
      · subst h
        rw [if_neg (lt_irrefl a), if_neg (lt_irrefl a), ih bs]
        exact (List.Lex.cons_iff).symm
      · rw [if_neg (asymm h), if_pos h]
        constructor
        · intro hfalse
          exact absurd hfalse Bool.false_ne_true
        · intro hlex
          cases hlex with
          | cons h' => exact absurd h (lt_irrefl _)
          | rel h' => exact absurd h' (lt_asymm h)

lemma strLtB_iff (a b : String) : strLtB a b = true ↔ a < b := by
  rw [strLtB, charListLtB_iff, String.lt_iff_toList_lt]
  exact Iff.rfl

lemma strLeB_iff (a b : String) : strLeB a b = true ↔ a ≤ b := by
  unfold strLeB
  constructor
  · intro h
    refine le_of_not_lt fun hlt => ?_
    have hb := (strLtB_iff b a).mpr hlt
    rw [hb] at h
    exact absurd h (by simp)
  · intro h
    cases hb : strLtB b a with
    | false => rfl
    | true => exact absurd ((strLtB_iff b a).mp hb) (not_lt.mpr h)

lemma string_not_lt_empty (s : String) : ¬ s < "" := by
  intro h
  rw [String.lt_iff_toList_lt] at h
  exact List.Lex.not_nil_right _ _ h

lemma empty_lt_string_iff (s : String) : ("" : String) < s ↔ s ≠ "" := by
  constructor
  · intro h hEq
    subst hEq
    exact lt_irrefl _ h
  · intro h
    rw [String.lt_iff_toList_lt]
    cases hl : s.toList with
    | nil =>
      refine absurd (String.toList_inj.mp ?_) h
      rw [hl]
      rfl
    | cons c cs =>
      exact List.nil_lt_cons c cs

/-! ## Lemmas about the incremental scan -/

lemma ite_strLtB_eq_max (a b : String) :
    (if strLtB a b then b else a) = max a b := by
  cases h : strLtB a b with
  | true =>
    rw [if_pos rfl]
    exact (max_eq_right ((strLtB_iff a b).mp h).le).symm
  | false =>
    rw [if_neg (by simp)]
    refine (max_eq_left (le_of_not_lt fun hc => ?_)).symm
    rw [(strLtB_iff a b).mpr hc] at h
    cases h

lemma incApplyEntry_last_timestamp (r : IncResult) (e : TranscriptEntry) :
    (incApplyEntry r e).last_timestamp = max r.last_timestamp e.timestamp := by
  rw [← ite_strLtB_eq_max]
  unfold incApplyEntry
  dsimp only
  repeat' split
  all_goals rfl

lemma incApplyEntry_usage (r : IncResult) (e : TranscriptEntry) :
    (incApplyEntry r e).usage =
      match resolvedUsage e with
      | some u => if u.input_tokens ≠ 0 then addUsage r.usage u else r.usage
      | none => r.usage := by
  unfold incApplyEntry
  dsimp only
  repeat' split
  all_goals rfl

lemma filterMap_id_cons_some (e : TranscriptEntry) (l : List TranscriptLine) :
    (some e :: l).filterMap id = e :: l.filterMap id := rfl

lemma filterMap_id_cons_none (l : List TranscriptLine) :
    ((none : TranscriptLine) :: l).filterMap id = l.filterMap id := rfl

lemma incStep_none (w : String) (r : IncResult) :
    incStep w r none = r := rfl

lemma incStep_some_pass (w : String) (r : IncResult) (e : TranscriptEntry)
    (hp : passesIncFilter w e = true) :
    incStep w r (some e) = incApplyEntry r e := by
  show (if passesIncFilter w e then incApplyEntry r e else r) = _
  rw [if_pos hp]

lemma incStep_some_fail (w : String) (r : IncResult) (e : TranscriptEntry)
    (hp : passesIncFilter w e = false) :
    incStep w r (some e) = r := by
  show (if passesIncFilter w e then incApplyEntry r e else r) = _
  rw [if_neg (by simp [hp])]

/-- The running `latest_ts` of the incremental scan is the maximum of the
initial accumulator value and the timestamps of all filtered-in entries. -/
lemma incFold_last_timestamp (w : String) :
    ∀ (lines : List TranscriptLine) (r : IncResult),
      (lines.foldl (incStep w) r).last_timestamp =
        ((lines.filterMap id).filter (fun e => passesIncFilter w e)).foldl
          (fun a e => max a e.timestamp) r.last_timestamp := by
  intro lines
  induction lines with
  | nil => intro r; rfl
  | cons l rest ih =>
    intro r
    cases l with
    | none =>
      rw [List.foldl_cons, incStep_none, ih, filterMap_id_cons_none]
    | some e =>
      rw [List.foldl_cons, filterMap_id_cons_some, List.filter_cons]
      cases hp : passesIncFilter w e with
      | true =>
        rw [if_pos rfl, incStep_some_pass w r e hp, ih, List.foldl_cons,
          incApplyEntry_last_timestamp]
      | false =>
        rw [if_neg Bool.false_ne_true, incStep_some_fail w r e hp, ih]

/-- A scan in which every parsed entry fails the timestamp filter leaves the
accumulator entirely unchanged. -/
lemma incFold_all_filtered (w : String) :
    ∀ (lines : List TranscriptLine) (r : IncResult),
      (∀ e ∈ lines.filterMap id, passesIncFilter w e = false) →
      lines.foldl (incStep w) r = r := by
  intro lines
  induction lines with
  | nil => intro r _; rfl
  | cons l rest ih =>
    intro r h
    cases l with
    | none =>
      rw [List.foldl_cons, incStep_none]
      exact ih r (fun e he => h e (by rw [filterMap_id_cons_none]; exact he))
    | some e =>
      have he : passesIncFilter w e = false := by
        refine h e ?_
        rw [filterMap_id_cons_some]
        exact List.mem_cons_self _ _
      rw [List.foldl_cons, incStep_some_fail w r e he]
      refine ih r (fun e' he' => h e' ?_)
      rw [filterMap_id_cons_some]
      exact List.mem_cons_of_mem _ he'

lemma foldl_max_ts_init_le (l : List TranscriptEntry) (a : String) :
    a ≤ l.foldl (fun x e => max x e.timestamp) a := by
  induction l generalizing a with
  | nil => exact le_rfl
  | cons e rest ih =>
    exact le_trans (le_max_left a e.timestamp) (ih _)

lemma foldl_max_ts_mem_le :
    ∀ (l : List TranscriptEntry) (a : String) (e : TranscriptEntry), e ∈ l →
      e.timestamp ≤ l.foldl (fun x e => max x e.timestamp) a := by
  intro l
  induction l with
  | nil => intro a e he; cases he
  | cons e' rest ih =>
    intro a e he
    rcases List.mem_cons.mp he with h | h
    · subst h
      exact le_trans (le_max_right a e.timestamp) (foldl_max_ts_init_le _ _)
    · exact ih _ _ h

/-- The incremental filter passes exactly the entries whose timestamp is
strictly greater than the watermark. -/
lemma passesIncFilter_iff (w : String) (e : TranscriptEntry) :
    passesIncFilter w e = true ↔ w < e.timestamp := by
  unfold passesIncFilter
  by_cases h1 : e.timestamp = ""
  · rw [if_pos h1, h1]
    constructor
    · intro h; cases h
    · intro h; exact absurd h (string_not_lt_empty w)
  · rw [if_neg h1]
    by_cases h2 : w = ""
    · subst h2
      rw [if_neg (by simp)]
      simp only [true_iff]
      exact (empty_lt_string_iff _).mpr h1
    · by_cases h3 : e.timestamp ≤ w
      · rw [if_pos ⟨h2, (strLeB_iff _ _).mpr h3⟩]
        constructor
        · intro h; cases h
        · intro h; exact absurd h (not_lt.mpr h3)
      · rw [if_neg (fun hc => h3 ((strLeB_iff _ _).mp hc.2))]
        simp only [true_iff]
        exact not_le.mp h3

/-! ## Claim C2: cost formula -/

/-- C2: for every mapping of the four token categories to non-negative
integer counts, `calculate_cost` equals
`(input*3.00 + output*15.00 + cache_read*0.30 + cache_creation*3.75) / 1e6`,
rounded to four decimal places. -/
theorem C2_cost_formula (t : Tokens)
    (_h : 0 ≤ t.input ∧ 0 ≤ t.output ∧ 0 ≤ t.cache_read ∧ 0 ≤ t.cache_creation) :
    calculate_cost t =
      round4 (((t.input : ℚ) * 3 + (t.output : ℚ) * 15 + (t.cache_read : ℚ) * (3 / 10)
        + (t.cache_creation : ℚ) * (15 / 4)) / 1000000) := by
  unfold calculate_cost
  congr 1
  ring

/-- C2 witness: the cost formula at a concrete token count. -/
theorem C2_cost_formula_witness :
    calculate_cost
        { input := 1000000, output := 2000000, cache_read := 3000000,
          cache_creation := 4000000 } =
      round4 ((((1000000 : Int) : ℚ) * 3 + ((2000000 : Int) : ℚ) * 15
        + ((3000000 : Int) : ℚ) * (3 / 10)
        + ((4000000 : Int) : ℚ) * (15 / 4)) / 1000000) :=
  C2_cost_formula _ (by decide)

/-! ## Claim C3: incremental scan watermark and idempotence -/

/-- C3: the incremental scan skips (leaves the accumulator untouched on)
every entry whose timestamp is not strictly greater than the watermark —
in particular an entry whose timestamp equals the watermark; the returned
watermark is the maximum timestamp seen (the fold of `max` over the
filtered-in entries, seeded with the supplied watermark); and re-running the
scan with the returned watermark accumulates zero tokens, so no entry is
double-counted. -/
theorem C3_incremental_idempotent (lines : List TranscriptLine) (w : String) :
    (∀ (r : IncResult) (e : TranscriptEntry), ¬ w < e.timestamp →
      incStep w r (some e) = r) ∧
    (get_incremental_usage (some lines) w).last_timestamp =
      ((lines.filterMap id).filter (fun e => passesIncFilter w e)).foldl
        (fun a e => max a e.timestamp) w ∧
    (get_incremental_usage (some lines)
      ((get_incremental_usage (some lines) w).last_timestamp)).usage =
      ⟨0, 0, 0, 0⟩ := by
  have hmax : (get_incremental_usage (some lines) w).last_timestamp =
      ((lines.filterMap id).filter (fun e => passesIncFilter w e)).foldl
        (fun a e => max a e.timestamp) w := by
    show (lines.foldl (incStep w) { last_timestamp := w }).last_timestamp = _
    rw [incFold_last_timestamp]
  refine ⟨?_, hmax, ?_⟩
  · intro r e hne
    refine incStep_some_fail w r e ?_
    cases hq : passesIncFilter w e with
    | false => rfl
    | true => exact absurd ((passesIncFilter_iff w e).mp hq) hne
  · have hall : ∀ e ∈ lines.filterMap id,
        passesIncFilter ((get_incremental_usage (some lines) w).last_timestamp) e
          = false := by
      intro e he
      have hle : e.timestamp ≤ (get_incremental_usage (some lines) w).last_timestamp := by
        rw [hmax]
        cases hp : passesIncFilter w e with
        | true =>
          exact foldl_max_ts_mem_le _ w e (List.mem_filter.mpr ⟨he, hp⟩)
        | false =>
          have hwle : e.timestamp ≤ w := by
            refine le_of_not_lt fun hc => ?_
            rw [(passesIncFilter_iff w e).mpr hc] at hp
            cases hp
          exact le_trans hwle (foldl_max_ts_init_le _ _)
      cases hq : passesIncFilter
          ((get_incremental_usage (some lines) w).last_timestamp) e with
      | false => rfl
      | true =>
        exact absurd ((passesIncFilter_iff _ e).mp hq) (not_lt.mpr hle)
    show (lines.foldl (incStep _) _).usage = _
    rw [incFold_all_filtered _ lines _ hall]

/-- Transcript fixture for the C3 witness: one entry at the watermark
instant, one malformed line, one later entry. -/
def c3EntryA : TranscriptEntry :=
  { timestamp := "2025-01-01T00:00:01.000Z"
    usage := some { input_tokens := 5, output_tokens := 7,
                    cache_read_input_tokens := 2, cache_creation_input_tokens := 1 } }

def c3EntryB : TranscriptEntry :=
  { timestamp := "2025-01-01T00:00:03.000Z"
    usage := some { input_tokens := 4 } }

def c3Lines : List TranscriptLine := [some c3EntryA, none, some c3EntryB]

/-- C3 witness: an entry timestamped exactly at the watermark is skipped,
and a rerun from the returned watermark accumulates nothing. -/
theorem C3_incremental_idempotent_witness :
    incStep "2025-01-01T00:00:01.000Z" { last_timestamp := "x" } (some c3EntryA) =
      { last_timestamp := "x" } ∧
    (get_incremental_usage (some c3Lines)
      ((get_incremental_usage (some c3Lines)
        "2025-01-01T00:00:01.000Z").last_timestamp)).usage = ⟨0, 0, 0, 0⟩ := by
  have h := C3_incremental_idempotent c3Lines "2025-01-01T00:00:01.000Z"
  refine ⟨h.1 _ _ (fun hc => ?_), h.2.2⟩
  have hb := (strLtB_iff "2025-01-01T00:00:01.000Z" c3EntryA.timestamp).mpr hc
  exact absurd hb (by decide)

/-! ## Claim C5: tail-read response extraction -/

/-- Assistant message fixture for C5: the two text blocks of the claim. -/
def helloMessage : Message :=
  { role := "assistant"
    content := some [{ type := "text", text := "Hello " },
                     { type := "text", text := "world" }] }

/-- Transcript fixture for C5: a single assistant message with the two
text blocks of the claim. -/
def helloTranscript : List TranscriptLine :=
  [some { message := some helloMessage }]

/-- C5 counterexample: the tail read joins the text blocks with a single
space separator, so the blocks `"Hello "` and `"world"` give
`"Hello  world"` (two spaces), not the claimed `"Hello world"`. -/
theorem C5_tail_read_counterexample :
    get_latest_response (some helloTranscript) 0 ≠ some "Hello world" ∧
    get_latest_response (some helloTranscript) 0 = some "Hello  world" := by
  exact ⟨by decide, by decide⟩

/-- C5 amended: on the two text blocks `"Hello "` and `"world"` the tail
read with no length limit returns `"Hello  world"` (the blocks joined with
a single-space separator, keeping the first block's trailing space, then
whitespace-trimmed at the ends only), and with `response_max_length = 5`
returns `"Hello..."`. -/
theorem C5_tail_read_amended :
    get_latest_response (some helloTranscript) 0 = some "Hello  world" ∧
    get_latest_response (some helloTranscript) 5 = some "Hello..." := by
  exact ⟨by decide, by decide⟩

/-! ## Claim C4: incremental scan vs full scan -/

lemma sessStep_none (cmp : String → Option Bool) (r : SessResult) :
    sessStep cmp r none = r := rfl

lemma sessStep_some_pass (cmp : String → Option Bool) (r : SessResult)
    (e : TranscriptEntry) (hp : passesFull cmp e = true) :
    sessStep cmp r (some e) = sessApplyEntry r e := by
  show (if passesFull cmp e then sessApplyEntry r e else r) = _
  rw [if_pos hp]

lemma sessStep_some_fail (cmp : String → Option Bool) (r : SessResult)
    (e : TranscriptEntry) (hp : passesFull cmp e = false) :
    sessStep cmp r (some e) = r := by
  show (if passesFull cmp e then sessApplyEntry r e else r) = _
  rw [if_neg (by simp [hp])]

lemma sessApplyEntry_tokens (r : SessResult) (e : TranscriptEntry) :
    (sessApplyEntry r e).tokens =
      match resolvedUsage e with
      | some u => addUsage r.tokens u
      | none => r.tokens := by
  unfold sessApplyEntry
  dsimp only
  repeat' split
  all_goals rfl

/-- The truthiness gate `if usage and usage.get("input_tokens")` of the
incremental scan, as a per-entry predicate: an entry's resolved usage object
is either absent or carries a non-zero `input_tokens`. -/
def inputTokensGate (e : TranscriptEntry) : Bool :=
  match resolvedUsage e with
  | some u => u.input_tokens ≠ 0
  | none => true

lemma inc_sess_tokens_eq (w : String) (cmp : String → Option Bool) :
    ∀ (lines : List TranscriptLine) (r : IncResult) (s : SessResult),
      r.usage = s.tokens →
      (∀ e ∈ lines.filterMap id, passesIncFilter w e = passesFull cmp e) →
      (∀ e ∈ lines.filterMap id, inputTokensGate e = true) →
      (lines.foldl (incStep w) r).usage = (lines.foldl (sessStep cmp) s).tokens := by
  intro lines
  induction lines with
  | nil =>
    intro r s hrs _ _
    exact hrs
  | cons l rest ih =>
    intro r s hrs hf hu
    cases l with
    | none =>
      rw [List.foldl_cons, List.foldl_cons, incStep_none, sessStep_none]
      refine ih r s hrs (fun e he => hf e ?_) (fun e he => hu e ?_) <;>
        (rw [filterMap_id_cons_none]; exact he)
    | some e =>
      have hmem : e ∈ (some e :: rest).filterMap id := by
        rw [filterMap_id_cons_some]
        exact List.mem_cons_self _ _
      have htail : ∀ e' ∈ rest.filterMap id, e' ∈ (some e :: rest).filterMap id := by
        intro e' he'
        rw [filterMap_id_cons_some]
        exact List.mem_cons_of_mem _ he'
      have hfe := hf e hmem
      rw [List.foldl_cons, List.foldl_cons]
      cases hp : passesIncFilter w e with
      | false =>
        rw [incStep_some_fail w r e hp, sessStep_some_fail cmp s e (by rw [← hfe, hp])]
        exact ih r s hrs (fun e' he' => hf e' (htail e' he'))
          (fun e' he' => hu e' (htail e' he'))
      | true =>
        rw [incStep_some_pass w r e hp, sessStep_some_pass cmp s e (by rw [← hfe, hp])]
        refine ih _ _ ?_ (fun e' he' => hf e' (htail e' he'))
          (fun e' he' => hu e' (htail e' he'))
        rw [incApplyEntry_usage, sessApplyEntry_tokens]
        have hg := hu e hmem
        unfold inputTokensGate at hg
        cases hru : resolvedUsage e with
        | none => exact hrs
        | some u =>
          rw [hru] at hg
          dsimp only at hg ⊢
          rw [if_pos (by simpa using hg), hrs]

/-- C4 counterexample input: one entry whose usage object has
`input_tokens = 0` but `output_tokens = 5`.  It passes both timestamp
filters, yet the incremental scan's truthiness gate skips it while the full
scan counts it. -/
def c4Entry : TranscriptEntry :=
  { timestamp := "2025-01-01T00:00:01.000Z"
    usage := some { output_tokens := 5 } }

def c4Lines : List TranscriptLine := [some c4Entry]

/-- A start-time comparison under which every timestamped entry is at or
after the session start (any session started before the transcript). -/
def cmpAll : String → Option Bool := fun _ => some false

/-- C4 counterexample: a transcript on which every entry passes both
timestamp filters, yet the two scans accumulate different totals — the
incremental scan skips a usage object whose `input_tokens` is zero, the full
scan counts it. -/
theorem C4_scan_agreement_counterexample :
    (∀ e ∈ c4Lines.filterMap id, passesIncFilter "" e = passesFull cmpAll e) ∧
    (get_incremental_usage (some c4Lines) "").usage ≠
      (get_session_info (some c4Lines) cmpAll).tokens := by
  exact ⟨by decide, by decide⟩

/-- C4 amended: the two scans accumulate the four token categories
identically over any transcript in which (i) every parsed entry passes the
incremental filter exactly when it passes the full-scan filter, and (ii)
every resolved usage object carries a non-zero `input_tokens` count — the
amendment (ii) is forced because the incremental scan's
`if usage and usage.get("input_tokens")` gate skips usage objects with a
zero or missing `input_tokens`, which the full scan's `if usage:` counts. -/
theorem C4_scan_agreement (lines : List TranscriptLine) (w : String)
    (cmp : String → Option Bool)
    (hfilters : ∀ e ∈ lines.filterMap id, passesIncFilter w e = passesFull cmp e)
    (hgate : ∀ e ∈ lines.filterMap id, inputTokensGate e = true) :
    (get_incremental_usage (some lines) w).usage =
      (get_session_info (some lines) cmp).tokens := by
  show (lines.foldl (incStep w) _).usage = (lines.foldl (sessStep cmp) _).tokens
  exact inc_sess_tokens_eq w cmp lines _ _ rfl hfilters hgate

/-- C4 witness fixture: a usage-bearing entry with non-zero `input_tokens`
and a malformed line. -/
def c4WitnessEntry : TranscriptEntry :=
  { timestamp := "2025-01-01T00:00:02.000Z"
    usage := some { input_tokens := 3, output_tokens := 5,
                    cache_read_input_tokens := 7, cache_creation_input_tokens := 9 } }

def c4WitnessLines : List TranscriptLine := [some c4WitnessEntry, none]

/-- C4 witness: the amended agreement at a concrete transcript. -/
theorem C4_scan_agreement_witness :
    (get_incremental_usage (some c4WitnessLines) "").usage =
      (get_session_info (some c4WitnessLines) cmpAll).tokens :=
  C4_scan_agreement c4WitnessLines "" cmpAll (by decide) (by decide)

/-! ## Claim C6: PostToolUse round trip -/

lemma applyFilesModified_timeline (tn : String) (ti : ToolInput) (s : SessionState) :
    (applyFilesModified tn ti s).timeline = s.timeline := by
  unfold applyFilesModified
  dsimp only
  repeat' split
  all_goals rfl

lemma applyFilesModified_pending_tool (tn : String) (ti : ToolInput)
    (s : SessionState) :
    (applyFilesModified tn ti s).pending_tool = s.pending_tool := by
  unfold applyFilesModified
  dsimp only
  repeat' split
  all_goals rfl

lemma applyErrorCount_timeline (tn : String) (tr : Option ToolResponse)
    (s : SessionState) :
    (applyErrorCount tn tr s).timeline = s.timeline := by
  unfold applyErrorCount
  repeat' split
  all_goals rfl

lemma applyErrorCount_pending_tool (tn : String) (tr : Option ToolResponse)
    (s : SessionState) :
    (applyErrorCount tn tr s).pending_tool = s.pending_tool := by
  unfold applyErrorCount
  repeat' split
  all_goals rfl

lemma applyPendingSubagent_timeline (now tn : String) (ti : ToolInput)
    (s : SessionState) :
    (applyPendingSubagent now tn ti s).timeline = s.timeline := by
  unfold applyPendingSubagent
  dsimp only
  repeat' split
  all_goals rfl

lemma applyPendingSubagent_pending_tool (now tn : String) (ti : ToolInput)
    (s : SessionState) :
    (applyPendingSubagent now tn ti s).pending_tool = s.pending_tool := by
  unfold applyPendingSubagent
  dsimp only
  repeat' split
  all_goals rfl

lemma postToolTimelineEntry_type (now : String) (s : SessionState) (tn : String)
    (ti : ToolInput) (tr : Option ToolResponse) :
    (postToolTimelineEntry now s tn ti tr).type = "tool" := by
  unfold postToolTimelineEntry baseToolEntry
  dsimp only
  repeat' split
  all_goals rfl

lemma postToolTimelineEntry_tool (now : String) (s : SessionState) (tn : String)
    (ti : ToolInput) (tr : Option ToolResponse) :
    (postToolTimelineEntry now s tn ti tr).tool = tn := by
  unfold postToolTimelineEntry baseToolEntry
  dsimp only
  repeat' split
  all_goals rfl

lemma postToolTimelineEntry_merged (now : String) (s : SessionState) (tn : String)
    (ti : ToolInput) (tr : Option ToolResponse) (p : PendingTool)
    (hp : s.pending_tool = some p) (hname : p.tool = tn) :
    (postToolTimelineEntry now s tn ti tr).ts = format_timestamp p.ts ∧
    (postToolTimelineEntry now s tn ti tr).input = p.input := by
  unfold postToolTimelineEntry baseToolEntry
  rw [hp]
  dsimp only
  rw [if_pos hname]
  constructor <;> (split <;> rfl)

lemma postToolTimelineEntry_fresh (now : String) (s : SessionState) (tn : String)
    (ti : ToolInput) (tr : Option ToolResponse)
    (hp : s.pending_tool = none ∨ ∃ p, s.pending_tool = some p ∧ p.tool ≠ tn) :
    (postToolTimelineEntry now s tn ti tr).ts = format_timestamp now ∧
    (postToolTimelineEntry now s tn ti tr).input = summarize_tool_input tn ti := by
  unfold postToolTimelineEntry baseToolEntry
  rcases hp with hp | ⟨p, hp, hne⟩ <;> rw [hp] <;> dsimp only
  · constructor <;> (split <;> rfl)
  · rw [if_neg hne]
    constructor <;> (split <;> rfl)

/-- C6: for every non-empty state and every PostToolUse event for a watched
tool, exactly one timeline record of type `tool` is appended and the pending
marker is cleared afterwards; when a pending marker for the same tool name
exists the record carries the marker's (formatted) pre-use timestamp and
input summary, otherwise it is built fresh from the event's own time and
input data. -/
theorem C6_post_tool_round_trip (env : HookEnv) (config : Config)
    (s : SessionState) (tool_name : String) (tool_input : ToolInput)
    (tool_response : Option ToolResponse)
    (h : tool_name ∈ config.tools_to_log) :
    ∃ (s' : SessionState) (entry : TimelineEntry),
      (handlePostToolUse env config (some s) tool_name tool_input
        tool_response).state = some s' ∧
      s'.timeline = s.timeline ++ [entry] ∧
      entry.type = "tool" ∧
      entry.tool = tool_name ∧
      s'.pending_tool = none ∧
      (∀ p, s.pending_tool = some p → p.tool = tool_name →
        entry.ts = format_timestamp p.ts ∧ entry.input = p.input) ∧
      ((s.pending_tool = none ∨ ∃ p, s.pending_tool = some p ∧ p.tool ≠ tool_name) →
        entry.ts = format_timestamp env.now ∧
        entry.input = summarize_tool_input tool_name tool_input) := by
  refine ⟨applyPendingSubagent env.now tool_name tool_input
      (applyErrorCount tool_name tool_response
        (applyFilesModified tool_name tool_input
          { s with
              timeline := s.timeline ++
                [postToolTimelineEntry env.now s tool_name tool_input tool_response]
              pending_tool := none })),
    postToolTimelineEntry env.now s tool_name tool_input tool_response,
    ?_, ?_, postToolTimelineEntry_type _ _ _ _ _,
    postToolTimelineEntry_tool _ _ _ _ _, ?_, ?_, ?_⟩
  · unfold handlePostToolUse
    dsimp only
    rw [if_pos h]
  · rw [applyPendingSubagent_timeline, applyErrorCount_timeline,
      applyFilesModified_timeline]
  · rw [applyPendingSubagent_pending_tool, applyErrorCount_pending_tool,
      applyFilesModified_pending_tool]
  · intro p hp hname
    exact postToolTimelineEntry_merged env.now s tool_name tool_input
      tool_response p hp hname
  · intro hp
    exact postToolTimelineEntry_fresh env.now s tool_name tool_input
      tool_response hp

/-- C6 witness fixtures: a session with a pending `Edit` marker, and the
matching PostToolUse payload. -/
def c6State : SessionState :=
  { start_time := "2025-01-01T10:00:00.000000"
    transcript_path := "/tmp/t.jsonl"
    timeline := [{ ts := "01-01 10:00", type := "prompt", content := "hi" }]
    pending_tool := some { ts := "2025-01-01T10:00:01.000000", tool := "Edit",
                           input := "file.txt" } }

def c6Input : ToolInput :=
  { file_path := some "a/file.txt", repr := "...", isEmpty := false }

/-- C6 witness: on a concrete matching round trip, the handler leaves a
state with the pending marker cleared and exactly one more timeline
record. -/
theorem C6_post_tool_round_trip_witness :
    ((handlePostToolUse {} {} (some c6State) "Edit" c6Input none).state.map
      SessionState.pending_tool) = some none ∧
    ((handlePostToolUse {} {} (some c6State) "Edit" c6Input none).state.map
      (fun s => s.timeline.length)) = some (c6State.timeline.length + 1) := by
  obtain ⟨s', entry, h1, h2, _, _, h5, _, _⟩ :=
    C6_post_tool_round_trip {} {} c6State "Edit" c6Input none (by decide)
  rw [h1]
  constructor
  · simp [h5]
  · simp [h2]

/-! ## Claim C10: unwatched tools and empty state are invisible -/

/-- C10: a PreToolUse or PostToolUse event arriving with an empty persisted
state, or for a tool outside the configured watch-list, leaves the state
exactly as it was, writes no state file and writes no snapshot. -/
theorem C10_unwatched_invisible (env : HookEnv) (config : Config)
    (st : Option SessionState) (tool_name : String) (tool_input : ToolInput)
    (tool_response : Option ToolResponse)
    (h : st = none ∨ tool_name ∉ config.tools_to_log) :
    handlePreToolUse env config st tool_name tool_input =
      { state := st, wroteState := false, snapshot := none } ∧
    handlePostToolUse env config st tool_name tool_input tool_response =
      { state := st, wroteState := false, snapshot := none } := by
  rcases st with _ | s
  · exact ⟨rfl, rfl⟩
  · rcases h with h | h
    · exact absurd h (Option.some_ne_none s)
    · constructor
      · unfold handlePreToolUse
        dsimp only
        rw [if_neg h]
      · unfold handlePostToolUse
        dsimp only
        rw [if_neg h]

/-- C10 witness: the empty persisted mapping is left untouched by a
PostToolUse / PreToolUse pair for a watched tool name. -/
theorem C10_unwatched_invisible_witness :
    handlePreToolUse {} {} none "Edit" {} =
      { state := none, wroteState := false, snapshot := none } ∧
    handlePostToolUse {} {} none "Edit" {} none =
      { state := none, wroteState := false, snapshot := none } :=
  C10_unwatched_invisible {} {} none "Edit" {} none (Or.inl rfl)

/-! ## Claim C7: SessionEnd rescan condition -/

lemma write_log_snapshot_tokens_full (env : HookEnv) (config : Config)
    (s : SessionState) (h : s.start_time ≠ "") :
    ((write_log_snapshot env config (some s) true).1.map Snapshot.tokens) =
      some (get_session_info (env.fs s.transcript_path)
        (env.startCmp s.start_time)).tokens := by
  unfold write_log_snapshot
  dsimp only
  rw [if_neg h]
  rfl

lemma write_log_snapshot_tokens_cached (env : HookEnv) (config : Config)
    (s : SessionState) (h : s.start_time ≠ "") :
    ((write_log_snapshot env config (some s) false).1.map Snapshot.tokens) =
      some s.tokens := by
  unfold write_log_snapshot
  dsimp only
  rw [if_neg h]
  rfl

lemma handleSessionEnd_snapshot (env : HookEnv) (config : Config)
    (s : SessionState) (h : s.start_time ≠ "") :
    (handleSessionEnd env config (some s)).snapshot =
      (write_log_snapshot env config (some s)
        (!(decide (s.tokens.input > 0 ∨ s.tokens.output > 0)))).1 := by
  unfold handleSessionEnd
  dsimp only
  rw [if_pos h]

/-- C7 counterexample state: accumulated tokens are non-zero (five
cache-read tokens), but input and output are both zero. -/
def c7State : SessionState :=
  { start_time := "2025-01-01T10:00:00.000000"
    transcript_path := "/tmp/t.jsonl"
    tokens := { cache_read := 5 } }

/-- C7 counterexample: on a state whose accumulated tokens are non-zero but
confined to the cache categories, the final snapshot does *not* reuse the
cached token counts — the handler's `input > 0 or output > 0` test fires a
full rescan (here of a missing transcript, yielding all-zero totals). -/
theorem C7_session_end_counterexample :
    c7State.tokens ≠ ⟨0, 0, 0, 0⟩ ∧
    ((handleSessionEnd {} {} (some c7State)).snapshot.map Snapshot.tokens) =
      some ⟨0, 0, 0, 0⟩ ∧
    ((handleSessionEnd {} {} (some c7State)).snapshot.map Snapshot.tokens) ≠
      some c7State.tokens := by
  exact ⟨by decide, by decide, by decide⟩

/-- C7 amended: on a SessionEnd event for a state with a start_time, the
final snapshot is computed from a full transcript rescan exactly when the
accumulated *input and output* tokens are both non-positive (the cache
categories are not consulted), and reuses the cached token counts when
input or output is positive; in either case — indeed for every persisted
state — the state is then cleared to the empty mapping. -/
theorem C7_session_end_final_snapshot (env : HookEnv) (config : Config)
    (s : SessionState) (h : s.start_time ≠ "") :
    (∀ st : Option SessionState, (handleSessionEnd env config st).state = none) ∧
    (s.tokens.input ≤ 0 ∧ s.tokens.output ≤ 0 →
      ((handleSessionEnd env config (some s)).snapshot.map Snapshot.tokens) =
        some (get_session_info (env.fs s.transcript_path)
          (env.startCmp s.start_time)).tokens) ∧
    (s.tokens.input > 0 ∨ s.tokens.output > 0 →
      ((handleSessionEnd env config (some s)).snapshot.map Snapshot.tokens) =
        some s.tokens) := by
  refine ⟨fun st => rfl, ?_, ?_⟩
  · intro hz
    rw [handleSessionEnd_snapshot env config s h]
    have hd : decide (s.tokens.input > 0 ∨ s.tokens.output > 0) = false :=
      decide_eq_false (not_or.mpr ⟨not_lt.mpr hz.1, not_lt.mpr hz.2⟩)
    rw [hd, Bool.not_false]
    exact write_log_snapshot_tokens_full env config s h
  · intro hv
    rw [handleSessionEnd_snapshot env config s h]
    have hd : decide (s.tokens.input > 0 ∨ s.tokens.output > 0) = true :=
      decide_eq_true hv
    rw [hd, Bool.not_true]
    exact write_log_snapshot_tokens_cached env config s h

/-- C7 witness state: positive input and output tokens. -/
def c7WitnessState : SessionState :=
  { start_time := "2025-01-01T10:00:00.000000"
    tokens := { input := 10, output := 2 } }

/-- C7 witness: with positive accumulated input/output the snapshot carries
the cached counts, and the state is cleared. -/
theorem C7_session_end_final_snapshot_witness :
    (handleSessionEnd {} {} (some c7WitnessState)).state = none ∧
    ((handleSessionEnd {} {} (some c7WitnessState)).snapshot.map Snapshot.tokens) =
      some c7WitnessState.tokens := by
  have h := C7_session_end_final_snapshot {} {} c7WitnessState (by decide)
  exact ⟨h.1 (some c7WitnessState), h.2.2 (Or.inl (by decide))⟩

/-! ## Claim C8: SessionEnd clears, SessionStart does not resurrect -/

/-- C8: after SessionEnd the persisted state is the empty mapping, and a
SessionStart that follows it — even with trigger `"startup"` and the same
transcript path — initialises its fresh state with an empty timeline (the
cleared state matches no transcript path). -/
theorem C8_no_timeline_resurrection (env env2 : HookEnv) (config : Config)
    (st : Option SessionState) (session_id transcript_path cwd : String) :
    (handleSessionEnd env config st).state = none ∧
    ((handleSessionStart env2 ((handleSessionEnd env config st).state)
        session_id transcript_path "startup" cwd).state.map
      SessionState.timeline) = some [] :=
  ⟨rfl, rfl⟩

/-! ## Claim C9: token counters are monotone within a session -/

/-- Componentwise order on the four accumulated counters. -/
def tokensLe (a b : Tokens) : Prop :=
  a.input ≤ b.input ∧ a.output ≤ b.output ∧
  a.cache_read ≤ b.cache_read ∧ a.cache_creation ≤ b.cache_creation

/-- Non-negativity of one usage object's four categories. -/
def usageNonneg (u : Usage) : Prop :=
  0 ≤ u.input_tokens ∧ 0 ≤ u.output_tokens ∧
  0 ≤ u.cache_read_input_tokens ∧ 0 ≤ u.cache_creation_input_tokens

/-- Every usage object of the transcript carries non-negative counts. -/
def transcriptUsagesNonneg (tr : Option (List TranscriptLine)) : Prop :=
  match tr with
  | none => True
  | some lines => ∀ e ∈ lines.filterMap id, ∀ u, resolvedUsage e = some u →
      usageNonneg u

lemma tokensLe_refl (t : Tokens) : tokensLe t t :=
  ⟨le_rfl, le_rfl, le_rfl, le_rfl⟩

lemma tokensLe_addUsage (t : Tokens) (u : Usage) (h : usageNonneg u) :
    tokensLe t (addUsage t u) :=
  ⟨le_add_of_nonneg_right h.1, le_add_of_nonneg_right h.2.1,
   le_add_of_nonneg_right h.2.2.1, le_add_of_nonneg_right h.2.2.2⟩

lemma tokensLe_trans {a b c : Tokens} (h1 : tokensLe a b) (h2 : tokensLe b c) :
    tokensLe a c :=
  ⟨le_trans h1.1 h2.1, le_trans h1.2.1 h2.2.1,
   le_trans h1.2.2.1 h2.2.2.1, le_trans h1.2.2.2 h2.2.2.2⟩

lemma incFold_usage_mono (w : String) :
    ∀ (lines : List TranscriptLine) (r : IncResult),
      (∀ e ∈ lines.filterMap id, ∀ u, resolvedUsage e = some u → usageNonneg u) →
      tokensLe r.usage (lines.foldl (incStep w) r).usage := by
  intro lines
  induction lines with
  | nil =>
    intro r _
    exact tokensLe_refl _
  | cons l rest ih =>
    intro r h
    cases l with
    | none =>
      rw [List.foldl_cons, incStep_none]
      exact ih r (fun e he => h e (by rw [filterMap_id_cons_none]; exact he))
    | some e =>
      have htail : ∀ e' ∈ rest.filterMap id, ∀ u, resolvedUsage e' = some u →
          usageNonneg u := by
        intro e' he'
        refine h e' ?_
        rw [filterMap_id_cons_some]
        exact List.mem_cons_of_mem _ he'
      rw [List.foldl_cons]
      cases hp : passesIncFilter w e with
      | false =>
        rw [incStep_some_fail w r e hp]
        exact ih r htail
      | true =>
        rw [incStep_some_pass w r e hp]
        refine tokensLe_trans ?_ (ih _ htail)
        rw [incApplyEntry_usage]
        cases hru : resolvedUsage e with
        | none => exact tokensLe_refl _
        | some u =>
          have hu : usageNonneg u := by
            refine h e ?_ u hru
            rw [filterMap_id_cons_some]
            exact List.mem_cons_self _ _
          dsimp only
          split
          · exact tokensLe_addUsage _ _ hu
          · exact tokensLe_refl _

/-- The usage accumulated by one incremental scan is componentwise
non-negative when the transcript's usage objects are. -/
lemma get_incremental_usage_nonneg (tr : Option (List TranscriptLine))
    (w : String) (h : transcriptUsagesNonneg tr) :
    tokensLe {} (get_incremental_usage tr w).usage := by
  cases tr with
  | none => exact tokensLe_refl _
  | some lines =>
    show tokensLe _ (lines.foldl (incStep w) { last_timestamp := w }).usage
    exact incFold_usage_mono w lines { last_timestamp := w } h

lemma tokensLe_addTokens (t u : Tokens) (h : tokensLe {} u) :
    tokensLe t (addTokens t u) :=
  ⟨le_add_of_nonneg_right h.1, le_add_of_nonneg_right h.2.1,
   le_add_of_nonneg_right h.2.2.1, le_add_of_nonneg_right h.2.2.2⟩

lemma applyFilesModified_tokens (tn : String) (ti : ToolInput) (s : SessionState) :
    (applyFilesModified tn ti s).tokens = s.tokens := by
  unfold applyFilesModified
  dsimp only
  repeat' split
  all_goals rfl

lemma applyErrorCount_tokens (tn : String) (tr : Option ToolResponse)
    (s : SessionState) :
    (applyErrorCount tn tr s).tokens = s.tokens := by
  unfold applyErrorCount
  repeat' split
  all_goals rfl

lemma applyPendingSubagent_tokens (now tn : String) (ti : ToolInput)
    (s : SessionState) :
    (applyPendingSubagent now tn ti s).tokens = s.tokens := by
  unfold applyPendingSubagent
  dsimp only
  repeat' split
  all_goals rfl

/-- C9: within a session — at every event transition other than the
state-initialising ones and the SessionEnd that clears the state — each of
the four accumulated token counters is monotonically non-decreasing,
provided every usage object in the transcript carries non-negative
per-category counts.  The six in-session transitions are spelled out: a
matching UserPromptSubmit, PreToolUse, PostToolUse, SubagentStop,
PermissionRequest, and Stop (the only one that changes the counters, by
adding the incremental scan's non-negative totals). -/
theorem C9_tokens_monotone (env : HookEnv) (config : Config) (s : SessionState)
    (prompt transcript_path cwd tool_name : String) (tool_input : ToolInput)
    (tool_response : Option ToolResponse)
    (husage : transcriptUsagesNonneg (env.fs s.transcript_path)) :
    (∀ s', s.transcript_path = transcript_path → s.start_time ≠ "" →
      (handleUserPromptSubmit env config (some s) prompt transcript_path
        cwd).state = some s' → tokensLe s.tokens s'.tokens) ∧
    (∀ s', (handlePreToolUse env config (some s) tool_name tool_input).state =
      some s' → tokensLe s.tokens s'.tokens) ∧
    (∀ s', (handlePostToolUse env config (some s) tool_name tool_input
      tool_response).state = some s' → tokensLe s.tokens s'.tokens) ∧
    (∀ s', (handleSubagentStop env config (some s)).state = some s' →
      tokensLe s.tokens s'.tokens) ∧
    (∀ s', (handlePermissionRequest env config (some s) tool_name
      tool_input).state = some s' → tokensLe s.tokens s'.tokens) ∧
    (∀ s', (handleStop env config (some s)).state = some s' →
      tokensLe s.tokens s'.tokens) := by
  refine ⟨?_, ?_, ?_, ?_, ?_, ?_⟩
  · intro s' h1 h2 hs
    unfold handleUserPromptSubmit at hs
    dsimp only at hs
    rw [if_pos ⟨h1, h2⟩] at hs
    cases hs
    exact tokensLe_refl _
  · intro s' hs
    unfold handlePreToolUse at hs
    dsimp only at hs
    split at hs <;> (cases hs; exact tokensLe_refl _)
  · intro s' hs
    unfold handlePostToolUse at hs
    dsimp only at hs
    split at hs
    · cases hs
      rw [applyPendingSubagent_tokens, applyErrorCount_tokens,
        applyFilesModified_tokens]
      exact tokensLe_refl _
    · cases hs
      exact tokensLe_refl _
  · intro s' hs
    unfold handleSubagentStop at hs
    dsimp only at hs
    split at hs <;> (cases hs; exact tokensLe_refl _)
  · intro s' hs
    unfold handlePermissionRequest at hs
    dsimp only at hs
    cases hs
    exact tokensLe_refl _
  · intro s' hs
    unfold handleStop at hs
    dsimp only at hs
    split at hs
    · cases hs
      exact tokensLe_refl _
    · have hnn : ∀ w, tokensLe {}
          (get_incremental_usage (env.fs s.transcript_path) w).usage :=
        fun w => get_incremental_usage_nonneg _ w husage
      repeat' split at hs
      all_goals cases hs
      all_goals exact tokensLe_addTokens _ _ (hnn _)

/-- C9 witness fixture: a mid-session state with accumulated tokens and no
transcript on disk. -/
def c9State : SessionState :=
  { start_time := "2025-01-01T10:00:00.000000"
    transcript_path := "/tmp/t.jsonl"
    tokens := { input := 7, output := 1, cache_read := 2, cache_creation := 3 } }

/-- The state left by a Stop event on the C9 witness fixture. -/
def c9After : SessionState := { c9State with tokens := addTokens c9State.tokens {} }

/-- C9 witness: the Stop transition at the concrete fixture does not
decrease any counter. -/
theorem C9_tokens_monotone_witness : tokensLe c9State.tokens c9After.tokens := by
  have h := C9_tokens_monotone {} {} c9State "" "" "" "Edit" {} none trivial
  exact h.2.2.2.2.2 c9After (by decide)

/-! ## Claim C1: every invocation exits with status zero -/

/-- C1: one invocation of the hook's entry point always exits with status
zero, for a payload that fails JSON parsing, for any parsed event payload
(known or unknown event names, enabled or disabled config), and for a
payload whose handling raises internally; on any such failure the
diagnostic goes to standard error and the `errors.log` append happens
exactly when that file is writable (its own failure is swallowed). -/
theorem C1_always_exits_zero (env : HookEnv) (config : Config)
    (st : Option SessionState) (logWritable : Bool) (inp : HookInput) :
    (mainHook env config st logWritable inp).exitCode = 0 ∧
    (∀ msg, mainBody env config st inp = .error msg →
      (mainHook env config st logWritable inp).stderrDiagnostics =
        ["Hook Error: " ++ msg] ∧
      (mainHook env config st logWritable inp).errorsLogAppended = logWritable) := by
  constructor
  · unfold mainHook
    cases mainBody env config st inp <;> rfl
  · intro msg hmsg
    unfold mainHook
    rw [hmsg]
    exact ⟨rfl, rfl⟩

/-- C1 witness: a malformed standard-input payload still exits zero, with
the diagnostic reported. -/
theorem C1_always_exits_zero_witness :
    (mainHook {} {} none true .malformed).exitCode = 0 ∧
    (mainHook {} {} none true .malformed).errorsLogAppended = true := by
  have h := C1_always_exits_zero {} {} none true .malformed
  exact ⟨h.1, (h.2 "Expecting value" rfl).2⟩

end LogHook
